import Mathlib

/-!
# Blog posts API: the five route handlers of `firebase/functions/index.js`

A shallow embedding of the Express handlers (`/getPosts`, `/getPostById`,
`/createPost`, `/updatePost`, `/deletePost`) over an explicit model of the
`posts` collection, followed by theorems about their HTTP contract.

Conventions of the embedding
* a request value (`req.body`, `req.query.id` and what they contain) is a
  `Json`; JavaScript `undefined` is `none : Option Json`;
* a stored field value is an `FsVal`; a document is a path below the
  collection with a field list, and `collection.doc(path)` is `docRef`;
* a handler is a function `Env → Store → Request → Response × Store`: the store
  is passed explicitly, and `Env` carries what the handler does not control
  (server clock, the id the store generates, faults of the store);
* `await`ed store calls return `Except Fault _`, a `throw` is `Except.error`,
  and the `try { … } catch` of each handler is the final `match`.
-/

namespace BlogApi

/-! ## JavaScript values of a request -/

/-- A value produced by `JSON.parse` or by the query-string parser.  A number
is represented by its canonical text, the one `String()` prints for it (`42`,
`1.5`, `1e+21`; both zeros print `0`), so that every JSON number, fractional or
large, has a value here and its conversion to text is exact. -/
inductive Json where
  | null
  | bool (b : Bool)
  | num (text : String)
  | str (s : String)
  | arr (xs : List Json)
  | obj (kvs : List (String × Json))
  deriving Repr, Inhabited

/-- Any value a handler can `throw` and its `catch (err)` can receive. -/
structure Fault where
  detail : String
  deriving DecidableEq, Repr

/-- JavaScript truthiness of a request value: `!v` is `false` exactly when
`truthy v`.  `undefined`, `null`, `false`, the number zero and `""` are falsy;
every array and object is truthy. -/
def Json.truthy : Option Json → Bool
  | none => false
  | some .null => false
  | some (.bool b) => b
  | some (.num text) => text != "0"
  | some (.str s) => s != ""
  | some (.arr _) => true
  | some (.obj _) => true

/-- Property read `v.key` on a request value (`undefined` when absent).  Only
used for the keys `title`, `content`, `author`, which no prototype defines, so
every non-object yields `undefined`. -/
def Json.getProp : Json → String → Option Json
  | .obj kvs, key => kvs.lookup key
  | _, _ => none

/-- The `TypeError` of `String(o)` for an object `o` whose own `toString` is
not callable. -/
def typeError : Fault := ⟨"TypeError: Cannot convert object to primitive value"⟩

/-- An array element inside `join`: `null` prints as the empty string, any
other element as its `String` conversion `s`. -/
def elemText (v : Json) (s : Except Fault String) : Except Fault String :=
  match v with
  | .null => .ok ""
  | _ => s

/-- Two joined pieces with the separator `","`; the first conversion that
throws aborts the join. -/
def joinText (a b : Except Fault String) : Except Fault String :=
  match a, b with
  | .ok x, .ok y => .ok (x ++ "," ++ y)
  | .error e, _ => .error e
  | .ok _, .error e => .error e

mutual
/-- The call `String(v)` on a request value.  An array is joined with `","`; a
plain object prints as `[object Object]`, unless it carries an own key
`toString` (a JSON value is never callable, and the inherited `valueOf` returns
the object itself), in which case the conversion throws. -/
def Json.jsString : Json → Except Fault String
  | .null => .ok "null"
  | .bool b => .ok (if b then "true" else "false")
  | .num text => .ok text
  | .str s => .ok s
  | .arr xs => Json.jsJoin xs
  | .obj kvs => if (kvs.lookup "toString").isSome then .error typeError
                else .ok "[object Object]"
/-- The call `xs.join(",")` made by `Array.prototype.toString`. -/
def Json.jsJoin : List Json → Except Fault String
  | [] => .ok ""
  | x :: rest =>
    match rest with
    | [] => elemText x (Json.jsString x)
    | _ :: _ => joinText (elemText x (Json.jsString x)) (Json.jsJoin rest)
end

/-! ## Stored values and the `posts` collection -/

/-- A field value of a stored document (the scalar Firestore types this API
meets).  A `timestamp` is a Firestore `Timestamp`, represented by the instant
its `toDate()` returns, in milliseconds since the Unix epoch. -/
inductive FsVal where
  | null
  | bool (b : Bool)
  | num (n : Int)
  | str (s : String)
  | timestamp (ms : Int)
  deriving DecidableEq, Repr, Inhabited

/-- JavaScript truthiness of a stored value as read from `doc.data()`; an
absent field reads as `undefined`.  A `Timestamp` is an object, hence truthy. -/
def FsVal.truthy : Option FsVal → Bool
  | none => false
  | some .null => false
  | some (.bool b) => b
  | some (.num n) => n != 0
  | some (.str s) => s != ""
  | some (.timestamp _) => true

/-- A document at or below the collection: its path relative to `posts` (the
one segment `id` for a document of the collection itself, `a/b/c` for a
document of a sub-collection) and its fields. -/
structure Doc where
  path : List String
  data : List (String × FsVal)
  deriving DecidableEq, Repr

/-- Property `doc.id` of a snapshot: the last segment of the document path. -/
def Doc.id (d : Doc) : String := d.path.getLast?.getD ""

/-- The documents at or below the `posts` collection. -/
abbrev Store := List Doc

/-- What a request cannot control: the server clock, the id the store generates
for `add`, and which store call (numbered from 0 within the request) fails.
A refusal by the server of a well-formed document path is such a failure. -/
structure Env where
  now : Int
  autoId : String
  fault : Nat → Option Fault

/-- The call `text.split("/")`, on the characters of the text. -/
def splitSlash : List Char → List (List Char)
  | [] => [[]]
  | c :: cs =>
    if c = '/' then [] :: splitSlash cs
    else match splitSlash cs with
      | [] => [[c]]
      | seg :: segs => (c :: seg) :: segs

/-- The test `text.indexOf("//") >= 0`. -/
def hasDoubleSlash : List Char → Bool
  | [] => false
  | c :: cs => (c == '/' && cs.head? == some '/') || hasDoubleSlash cs

/-- The call `collection.doc(documentPath)` of the Firestore client: the path
must be a non-empty string without `//`; it is cut at `/`, empty segments (a
leading or trailing slash) are dropped, and what is left must address a
document, that is have an odd number of segments below the collection.
Anything else throws.  The result is the path of the reference. -/
def docRef (documentPath : String) : Except Fault (List String) :=
  if documentPath = "" then
    .error ⟨"documentPath is not a valid resource path: path must be a non-empty string"⟩
  else if hasDoubleSlash documentPath.data then
    .error ⟨"documentPath is not a valid resource path: paths must not contain //"⟩
  else
    let segments :=
      ((splitSlash documentPath.data).filter (fun seg => !seg.isEmpty)).map String.mk
    if segments.length % 2 = 1 then .ok segments
    else .error ⟨"documentPath must point to a document: odd number of components"⟩

/-- Field read `data.key`. -/
def Doc.field (d : Doc) (key : String) : Option FsVal := d.data.lookup key

/-- Overwrite one field of a document's data, adding it when absent. -/
def setField (key : String) (v : FsVal) : List (String × FsVal) → List (String × FsVal)
  | [] => [(key, v)]
  | (k, w) :: rest => if k = key then (key, v) :: rest else (k, w) :: setField key v rest

/-- Overwrite several fields, leaving all the others as they are. -/
def setFields (fields : List (String × FsVal)) (data : List (String × FsVal)) :
    List (String × FsVal) :=
  fields.foldl (fun acc kv => setField kv.1 kv.2 acc) data

/-- A value handed to a write: a plain value, or the sentinel
`FieldValue.serverTimestamp()` that the store replaces by its own clock. -/
inductive WriteVal where
  | val (v : FsVal)
  | serverTimestamp
  deriving DecidableEq, Repr

/-- The store resolving a written value. -/
def WriteVal.resolve (env : Env) : WriteVal → FsVal
  | .val v => v
  | .serverTimestamp => .timestamp env.now

/-- The document at the given path, if any (`doc.exists` is `isSome`). -/
def Store.lookupDoc (st : Store) (path : List String) : Option Doc :=
  st.find? (fun d => d.path == path)

/-- Call `ref.get()` on the reference of the given path, the `k`-th store call
of the request. -/
def Store.get (env : Env) (k : Nat) (st : Store) (path : List String) :
    Except Fault (Option Doc) :=
  match env.fault k with
  | some f => .error f
  | none => .ok (st.lookupDoc path)

/-- Call `collection.add(data)`: a document of the collection is created under
the generated id, and the call fails when that document exists already. -/
def Store.add (env : Env) (k : Nat) (st : Store) (data : List (String × WriteVal)) :
    Except Fault (String × Store) :=
  match env.fault k with
  | some f => .error f
  | none =>
    if (st.lookupDoc [env.autoId]).isSome then .error ⟨"ALREADY_EXISTS"⟩
    else .ok (env.autoId,
      st ++ [⟨[env.autoId], data.map (fun kv => (kv.1, kv.2.resolve env))⟩])

/-- Call `ref.update(fields)`: the named fields are overwritten, the others
kept; the call fails when the document does not exist. -/
def Store.update (env : Env) (k : Nat) (st : Store) (path : List String)
    (fields : List (String × FsVal)) : Except Fault Store :=
  match env.fault k with
  | some f => .error f
  | none =>
    if (st.lookupDoc path).isSome then
      .ok (st.map (fun d =>
        if d.path = path then { d with data := setFields fields d.data } else d))
    else .error ⟨"NOT_FOUND"⟩

/-- Call `ref.delete()`. -/
def Store.delete (env : Env) (k : Nat) (st : Store) (path : List String) :
    Except Fault Store :=
  match env.fault k with
  | some f => .error f
  | none => .ok (st.filter (fun d => d.path != path))

/-- Firestore's order of values across types: null, booleans, numbers,
timestamps, strings; within a type the natural order. -/
def FsVal.orderKey : FsVal → Lex (Nat × Lex (Int × String))
  | .null => toLex (0, toLex (0, ""))
  | .bool b => toLex (1, toLex (if b then 1 else 0, ""))
  | .num n => toLex (2, toLex (n, ""))
  | .timestamp ms => toLex (3, toLex (ms, ""))
  | .str s => toLex (4, toLex (0, s))

/-- Sort key of a document in a query ordered by `field`: the field's value,
then the document id. -/
def Doc.orderKey (field : String) (d : Doc) : Lex (Lex (Nat × Lex (Int × String)) × String) :=
  toLex (((d.field field).getD .null).orderKey, d.id)

/-- Call `collection.orderBy(field, "desc").get()`: the documents of the
collection itself (not of a sub-collection) that have the field, largest value
first, equal values by descending id. -/
def Store.orderByDesc (env : Env) (k : Nat) (st : Store) (field : String) :
    Except Fault (List Doc) :=
  match env.fault k with
  | some f => .error f
  | none =>
    .ok ((st.filter (fun d => d.path.length == 1 && (d.field field).isSome)).insertionSort
          (fun a b => Doc.orderKey field b ≤ Doc.orderKey field a))

/-! ## Reading a document: `timestampToIso` and the returned post -/

/-- Decimal digits of `n`, left-padded with zeros to `width`. -/
def padZeros (width n : Nat) : String :=
  let s := toString n
  String.mk (List.replicate (width - s.length) '0') ++ s

/-- The call `Date.prototype.toISOString` on the instant `ms` (milliseconds
since the epoch): `YYYY-MM-DDTHH:mm:ss.sssZ` in the proleptic Gregorian
calendar, with the expanded year `±YYYYYY` outside 0..9999. -/
def toISOString (ms : Int) : String :=
  let days := ms / 86400000
  let inDay := (ms % 86400000).toNat
  let z := days + 719468
  let era := z / 146097
  let doe := (z % 146097).toNat
  let yoe := (doe - doe / 1460 + doe / 36524 - doe / 146096) / 365
  let doy := doe - (365 * yoe + yoe / 4 - yoe / 100)
  let mp := (5 * doy + 2) / 153
  let day := doy - (153 * mp + 2) / 5 + 1
  let month := if mp < 10 then mp + 3 else mp - 9
  let year : Int := (yoe : Int) + era * 400 + (if month ≤ 2 then 1 else 0)
  let yearText :=
    if 0 ≤ year ∧ year ≤ 9999 then padZeros 4 year.toNat
    else (if year < 0 then "-" else "+") ++ padZeros 6 year.natAbs
  yearText ++ "-" ++ padZeros 2 month ++ "-" ++ padZeros 2 day ++ "T"
    ++ padZeros 2 (inDay / 3600000) ++ ":" ++ padZeros 2 (inDay / 60000 % 60) ++ ":"
    ++ padZeros 2 (inDay / 1000 % 60) ++ "." ++ padZeros 3 (inDay % 1000) ++ "Z"

/-- Source `timestampToIso(ts)`: `null` for a falsy value, the ISO text for a
value with a `toDate` method (a `Timestamp`), `null` for anything else. -/
def timestampToIso (ts : Option FsVal) : Option String :=
  if !FsVal.truthy ts then none
  else match ts with
    | some (.timestamp ms) => some (toISOString ms)
    | _ => none

/-- The expression `v || ""` on a field read from a document. -/
def orEmpty (v : Option FsVal) : FsVal :=
  match v with
  | some x => if FsVal.truthy (some x) then x else .str ""
  | none => .str ""

/-- A post as handed to `res.json`; `createdAt := none` is JavaScript `null`. -/
structure Post where
  id : String
  title : FsVal
  content : FsVal
  author : FsVal
  createdAt : Option String
  deriving DecidableEq, Repr

/-- The object literal both read routes build from a document snapshot
(`index.js` lines 67-73 and 98-104). -/
def postOfDoc (doc : Doc) : Post :=
  { id := doc.id
    title := orEmpty (doc.field "title")
    content := orEmpty (doc.field "content")
    author := orEmpty (doc.field "author")
    createdAt := timestampToIso (doc.field "createdAt") }

/-! ## Requests, responses and the five handlers -/

/-- The parts of an Express request the handlers read: `req.query.id` and
`req.body` (`none` is `undefined`). -/
structure Request where
  queryId : Option Json
  body : Option Json

/-- The value handed to `res.json`. -/
inductive Body where
  | posts (posts : List Post)
  | post (post : Post)
  | id (id : String)
  | ok
  | error (msg : String)
  deriving DecidableEq, Repr

/-- An HTTP response: status (200 when the handler sets none) and JSON body. -/
structure Response where
  status : Nat
  body : Body
  deriving DecidableEq, Repr

/-- The call `String(v)` where `v` may be `undefined`. -/
def jsStringOf : Option Json → Except Fault String
  | none => .ok "undefined"
  | some v => v.jsString

/-- One name of the destructuring `const { title, content, author } = req.body || {}`. -/
def bodyField (req : Request) (key : String) : Option Json :=
  match req.body with
  | some b => if Json.truthy (some b) then b.getProp key else none
  | none => none

/-- Response `400 {"error": "Missing ?id=POST_ID"}`. -/
def missingId : Response := ⟨400, .error "Missing ?id=POST_ID"⟩

/-- Response `400 {"error": "Missing fields. Required: title, content, author"}`. -/
def missingFields : Response := ⟨400, .error "Missing fields. Required: title, content, author"⟩

/-- Response `404 {"error": "Post not found."}`. -/
def notFound : Response := ⟨404, .error "Post not found."⟩

/-- Body of the `try` block of `GET /getPosts`. -/
def getPostsTry (env : Env) (st : Store) (_req : Request) : Except Fault (Response × Store) := do
  let docs ← st.orderByDesc env 0 "createdAt"
  let posts := docs.map postOfDoc
  pure (⟨200, .posts posts⟩, st)

/-- Handler of `GET /getPosts`. -/
def getPosts (env : Env) (st : Store) (req : Request) : Response × Store :=
  match getPostsTry env st req with
  | .ok r => r
  | .error _ => (⟨500, .error "Failed to fetch posts."⟩, st)

/-- Body of the `try` block of `GET /getPostById`. -/
def getPostByIdTry (env : Env) (st : Store) (req : Request) : Except Fault (Response × Store) :=
  let postId := req.queryId
  if !Json.truthy postId then pure (missingId, st)
  else do
    let path ← jsStringOf postId
    let ref ← docRef path
    let doc ← st.get env 0 ref
    match doc with
    | none => pure (notFound, st)
    | some d => pure (⟨200, .post (postOfDoc d)⟩, st)

/-- Handler of `GET /getPostById?id=POST_ID`. -/
def getPostById (env : Env) (st : Store) (req : Request) : Response × Store :=
  match getPostByIdTry env st req with
  | .ok r => r
  | .error _ => (⟨500, .error "Failed to fetch post."⟩, st)

/-- Body of the `try` block of `POST /createPost`. -/
def createPostTry (env : Env) (st : Store) (req : Request) : Except Fault (Response × Store) :=
  let title := bodyField req "title"
  let content := bodyField req "content"
  let author := bodyField req "author"
  if !Json.truthy title || !Json.truthy content || !Json.truthy author then
    pure (missingFields, st)
  else do
    let t ← jsStringOf title
    let c ← jsStringOf content
    let a ← jsStringOf author
    let (id, st') ← st.add env 0
      [("title", .val (.str t)), ("content", .val (.str c)), ("author", .val (.str a)),
       ("createdAt", .serverTimestamp)]
    pure (⟨201, .id id⟩, st')

/-- Handler of `POST /createPost`. -/
def createPost (env : Env) (st : Store) (req : Request) : Response × Store :=
  match createPostTry env st req with
  | .ok r => r
  | .error _ => (⟨500, .error "Failed to create post."⟩, st)

/-- Body of the `try` block of `PUT /updatePost`. -/
def updatePostTry (env : Env) (st : Store) (req : Request) : Except Fault (Response × Store) :=
  let postId := req.queryId
  if !Json.truthy postId then pure (missingId, st)
  else
    let title := bodyField req "title"
    let content := bodyField req "content"
    let author := bodyField req "author"
    if !Json.truthy title || !Json.truthy content || !Json.truthy author then
      pure (missingFields, st)
    else do
      let path ← jsStringOf postId
      let ref ← docRef path
      let doc ← st.get env 0 ref
      match doc with
      | none => pure (notFound, st)
      | some _ =>
        let t ← jsStringOf title
        let c ← jsStringOf content
        let a ← jsStringOf author
        let st' ← st.update env 1 ref
          [("title", .str t), ("content", .str c), ("author", .str a)]
        pure (⟨200, .ok⟩, st')

/-- Handler of `PUT /updatePost?id=POST_ID`. -/
def updatePost (env : Env) (st : Store) (req : Request) : Response × Store :=
  match updatePostTry env st req with
  | .ok r => r
  | .error _ => (⟨500, .error "Failed to update post."⟩, st)

/-- Body of the `try` block of `DELETE /deletePost`. -/
def deletePostTry (env : Env) (st : Store) (req : Request) : Except Fault (Response × Store) :=
  let postId := req.queryId
  if !Json.truthy postId then pure (missingId, st)
  else do
    let path ← jsStringOf postId
    let ref ← docRef path
    let doc ← st.get env 0 ref
    match doc with
    | none => pure (notFound, st)
    | some _ =>
      let st' ← st.delete env 1 ref
      pure (⟨200, .ok⟩, st')

/-- Handler of `DELETE /deletePost?id=POST_ID`. -/
def deletePost (env : Env) (st : Store) (req : Request) : Response × Store :=
  match deletePostTry env st req with
  | .ok r => r
  | .error _ => (⟨500, .error "Failed to delete post."⟩, st)

/-- The five routes of the Express app. -/
inductive Route where
  | getPosts | getPostById | createPost | updatePost | deletePost
  deriving DecidableEq, Repr

/-- Dispatch of a request to the handler of its route. -/
def handle : Route → Env → Store → Request → Response × Store
  | .getPosts => getPosts
  | .getPostById => getPostById
  | .createPost => createPost
  | .updatePost => updatePost
  | .deletePost => deletePost

/-- Store states reachable from the empty collection through the handlers,
under any environment and any request. -/
inductive Reachable : Store → Prop where
  | empty : Reachable []
  | step (r : Route) (env : Env) (req : Request) {st : Store} :
      Reachable st → Reachable (handle r env st req).2

/-! ## Vocabulary of the specification -/

/-- The value a request body carries for a key (`none` when there is no body,
the body is not an object, or the object lacks the key). -/
def fieldOf (body : Option Json) (key : String) : Option Json :=
  body.bind (fun b => b.getProp key)

/-- A field that is missing, `null` or the empty string. -/
def Missing (v : Option Json) : Prop :=
  v = none ∨ v = some .null ∨ v = some (.str "")

/-- A document id as a request can name it: non-empty and without `/`. -/
def PlainId (x : String) : Prop :=
  x ≠ "" ∧ '/' ∉ x.data

/-- An environment whose store calls all succeed. -/
def calmEnv (now : Int) (autoId : String) : Env := ⟨now, autoId, fun _ => none⟩

/-- A request body with exactly the three post fields. -/
def postBody (title content author : Json) : Option Json :=
  some (.obj [("title", title), ("content", content), ("author", author)])

/-- A document exactly as the write path leaves it: a document of the
collection itself, with three text fields and a timestamp. -/
def PostShaped (d : Doc) : Prop :=
  ∃ i t c a ms, d = ⟨[i], [("title", .str t), ("content", .str c), ("author", .str a),
                           ("createdAt", .timestamp ms)]⟩

/-- Invariant of the reachable stores: every document is post-shaped and no
two documents share a path. -/
def StoreInv (st : Store) : Prop :=
  (∀ d ∈ st, PostShaped d) ∧ (st.map Doc.path).Nodup

/-- Newest first: of two documents that both carry a timestamp `createdAt`,
the earlier in the list is not older than the later. -/
def NewestFirst (ds : List Doc) : Prop :=
  ds.Pairwise (fun a b => ∀ ta tb, a.field "createdAt" = some (.timestamp ta) →
    b.field "createdAt" = some (.timestamp tb) → tb ≤ ta)

/-! ## Basic facts about the embedding -/

theorem bodyField_eq_fieldOf (q body : Option Json) (key : String) :
    bodyField ⟨q, body⟩ key = fieldOf body key := by
  cases body with
  | none => rfl
  | some b => cases b <;> simp [bodyField, fieldOf, Json.truthy, Json.getProp]

theorem truthy_false_of_missing {v : Option Json} (h : Missing v) : Json.truthy v = false := by
  rcases h with h | h | h <;> subst h <;> simp [Json.truthy]

theorem createPost_of_falsy (env : Env) (st : Store) (req : Request)
    (h : Json.truthy (bodyField req "title") = false
      ∨ Json.truthy (bodyField req "content") = false
      ∨ Json.truthy (bodyField req "author") = false) :
    createPost env st req = (missingFields, st) := by
  rcases h with h | h | h <;> simp [createPost, createPostTry, h, pure, Except.pure]

theorem updatePost_of_falsy (env : Env) (st : Store) (req : Request)
    (hid : Json.truthy req.queryId = true)
    (h : Json.truthy (bodyField req "title") = false
      ∨ Json.truthy (bodyField req "content") = false
      ∨ Json.truthy (bodyField req "author") = false) :
    updatePost env st req = (missingFields, st) := by
  rcases h with h | h | h <;> simp [updatePost, updatePostTry, hid, h, pure, Except.pure]

theorem updatePost_of_no_id (env : Env) (st : Store) (req : Request)
    (hid : Json.truthy req.queryId = false) :
    updatePost env st req = (missingId, st) := by
  simp [updatePost, updatePostTry, hid, pure, Except.pure]

theorem truthy_str {x : String} (h : x ≠ "") : Json.truthy (some (.str x)) = true := by
  simp [Json.truthy, h]

/-! ### Document paths -/

theorem splitSlash_of_no_slash : ∀ (cs : List Char), '/' ∉ cs → splitSlash cs = [cs]
  | [], _ => rfl
  | c :: cs, h => by
    have hc : c ≠ '/' := fun e => h (by simp [e])
    have hcs : '/' ∉ cs := fun e => h (List.mem_cons_of_mem _ e)
    simp [splitSlash, hc, splitSlash_of_no_slash cs hcs]

theorem hasDoubleSlash_of_no_slash : ∀ (cs : List Char), '/' ∉ cs → hasDoubleSlash cs = false
  | [], _ => rfl
  | c :: cs, h => by
    have hc : c ≠ '/' := fun e => h (by simp [e])
    have hcs : '/' ∉ cs := fun e => h (List.mem_cons_of_mem _ e)
    simp [hasDoubleSlash, hc, hasDoubleSlash_of_no_slash cs hcs]

/-- A plain id is the path of a document of the collection itself. -/
theorem docRef_plain {x : String} (h : PlainId x) : docRef x = .ok [x] := by
  obtain ⟨hne, hs⟩ := h
  have hd : x.data ≠ [] := by
    intro e
    apply hne
    cases x
    simp_all
  have hemp : x.data.isEmpty = false := by
    cases hx : x.data with
    | nil => exact absurd hx hd
    | cons c cs => rfl
  simp [docRef, hne, hasDoubleSlash_of_no_slash _ hs, splitSlash_of_no_slash _ hs, hemp]

theorem lookupDoc_path {st : Store} {p : List String} {d : Doc} (h : st.lookupDoc p = some d) :
    d.path = p := by
  have := List.find?_some h
  simpa using this

theorem lookupDoc_append_new {st : Store} {p : List String} (data : List (String × FsVal))
    (h : st.lookupDoc p = none) : Store.lookupDoc (st ++ [⟨p, data⟩]) p = some ⟨p, data⟩ := by
  unfold Store.lookupDoc at *
  simp [List.find?_append, h]

theorem lookupDoc_filter_self (st : Store) (p : List String) :
    Store.lookupDoc (st.filter (fun d => d.path != p)) p = none := by
  unfold Store.lookupDoc
  simp [List.find?_eq_none]

theorem lookupDoc_filter_other (st : Store) {p q : List String} (h : q ≠ p) :
    Store.lookupDoc (st.filter (fun d => d.path != p)) q = st.lookupDoc q := by
  unfold Store.lookupDoc
  induction st with
  | nil => rfl
  | cons d rest ih =>
    by_cases hd : d.path = p
    · have hpq : (p == q) = false := by simpa using Ne.symm h
      simp [List.filter_cons, List.find?_cons, hd, hpq, ih]
    · by_cases hq : d.path = q
      · have hqp : ¬ q = p := h
        simp [List.filter_cons, List.find?_cons, hq, hqp]
      · simp [List.filter_cons, List.find?_cons, hd, hq, ih]

/-! ### The handlers on their main paths -/

/-- The read route on an id string that addresses the path `p`, when the store
call succeeds. -/
theorem getPostById_ref (env : Env) (st : Store) (x : String) (p : List String)
    (b : Option Json) (hx : x ≠ "") (hp : docRef x = .ok p) (hf : env.fault 0 = none) :
    getPostById env st ⟨some (.str x), b⟩ =
      match st.lookupDoc p with
      | none => (notFound, st)
      | some d => (⟨200, .post (postOfDoc d)⟩, st) := by
  simp only [getPostById, getPostByIdTry, truthy_str hx, jsStringOf, Json.jsString, hp,
    Store.get, hf, bind, Except.bind, pure, Except.pure]
  cases st.lookupDoc p <;> rfl

/-- The read route on a plain id when the store call succeeds. -/
theorem getPostById_str (env : Env) (st : Store) (x : String) (b : Option Json)
    (hx : PlainId x) (hf : env.fault 0 = none) :
    getPostById env st ⟨some (.str x), b⟩ =
      match st.lookupDoc [x] with
      | none => (notFound, st)
      | some d => (⟨200, .post (postOfDoc d)⟩, st) :=
  getPostById_ref env st x [x] b hx.1 (docRef_plain hx) hf

/-- The create route when validation and coercion pass and the store call
succeeds under an unused generated id. -/
theorem createPost_ok (env : Env) (st : Store) (req : Request) (t c a : String)
    (ht : Json.truthy (bodyField req "title") = true)
    (hc : Json.truthy (bodyField req "content") = true)
    (ha : Json.truthy (bodyField req "author") = true)
    (st_t : jsStringOf (bodyField req "title") = .ok t)
    (st_c : jsStringOf (bodyField req "content") = .ok c)
    (st_a : jsStringOf (bodyField req "author") = .ok a)
    (hf : env.fault 0 = none) (hfresh : st.lookupDoc [env.autoId] = none) :
    createPost env st req =
      (⟨201, .id env.autoId⟩,
        st ++ [⟨[env.autoId], [("title", .str t), ("content", .str c), ("author", .str a),
                               ("createdAt", .timestamp env.now)]⟩]) := by
  simp [createPost, createPostTry, ht, hc, ha, st_t, st_c, st_a, Store.add, hf, hfresh,
    bind, Except.bind, pure, Except.pure, WriteVal.resolve]

/-- A 201 answer of the create route always carries the generated id, which
was unused, and appends exactly one document stamped with the server clock. -/
theorem createPost_201 (env : Env) (st : Store) (req : Request) (x : String)
    (h : (createPost env st req).1 = ⟨201, .id x⟩) :
    x = env.autoId ∧ st.lookupDoc [x] = none ∧
    ∃ t c a, (createPost env st req).2 =
      st ++ [⟨[env.autoId], [("title", .str t), ("content", .str c), ("author", .str a),
                             ("createdAt", .timestamp env.now)]⟩] := by
  revert h
  simp only [createPost, createPostTry]
  split_ifs with hv
  · simp [pure, Except.pure, missingFields]
  · cases jsStringOf (bodyField req "title") with
    | error e => simp [bind, Except.bind]
    | ok t =>
      cases jsStringOf (bodyField req "content") with
      | error e => simp [bind, Except.bind]
      | ok c =>
        cases jsStringOf (bodyField req "author") with
        | error e => simp [bind, Except.bind]
        | ok a =>
          cases hf : env.fault 0 with
          | some f => simp [bind, Except.bind, Store.add, hf]
          | none =>
            cases hl : st.lookupDoc [env.autoId] with
            | some d => simp [bind, Except.bind, Store.add, hf, hl]
            | none =>
              simp only [bind, Except.bind, Store.add, hf, hl, pure, Except.pure]
              intro h
              simp at h
              subst h
              exact ⟨rfl, hl, t, c, a, by simp [WriteVal.resolve]⟩

theorem lookup_setField_same (k : String) (v : FsVal) (l : List (String × FsVal)) :
    (setField k v l).lookup k = some v := by
  induction l with
  | nil => simp [setField, List.lookup]
  | cons p rest ih =>
    obtain ⟨k1, w⟩ := p
    by_cases h : k1 = k
    · simp [setField, h, List.lookup]
    · have hb : (k == k1) = false := by simpa using Ne.symm h
      simp [setField, h, List.lookup, hb, ih]

theorem lookup_setField_other {k k2 : String} (v : FsVal) (l : List (String × FsVal))
    (h : k2 ≠ k) : (setField k v l).lookup k2 = l.lookup k2 := by
  induction l with
  | nil =>
    have hb : (k2 == k) = false := by simpa using h
    simp [setField, List.lookup, hb]
  | cons p rest ih =>
    obtain ⟨k1, w⟩ := p
    by_cases h1 : k1 = k
    · subst h1
      have hb : (k2 == k1) = false := by simpa using h
      simp [setField, List.lookup, hb]
    · by_cases h2 : k2 = k1
      · simp [setField, h1, List.lookup, h2]
      · have hb : (k2 == k1) = false := by simpa using h2
        simp [setField, h1, List.lookup, hb, ih]

/-- The fields an update writes. -/
theorem field_setFields (data : List (String × FsVal)) (t c a : FsVal) :
    (setFields [("title", t), ("content", c), ("author", a)] data).lookup "title" = some t
    ∧ (setFields [("title", t), ("content", c), ("author", a)] data).lookup "content" = some c
    ∧ (setFields [("title", t), ("content", c), ("author", a)] data).lookup "author" = some a := by
  simp only [setFields, List.foldl]
  refine ⟨?_, ?_, ?_⟩
  · rw [lookup_setField_other _ _ (by decide), lookup_setField_other _ _ (by decide),
      lookup_setField_same]
  · rw [lookup_setField_other _ _ (by decide), lookup_setField_same]
  · rw [lookup_setField_same]

/-- The fields an update keeps. -/
theorem field_setFields_other (data : List (String × FsVal)) (t c a : FsVal) (k : String)
    (h1 : k ≠ "title") (h2 : k ≠ "content") (h3 : k ≠ "author") :
    (setFields [("title", t), ("content", c), ("author", a)] data).lookup k = data.lookup k := by
  simp only [setFields, List.foldl]
  rw [lookup_setField_other _ _ h3, lookup_setField_other _ _ h2, lookup_setField_other _ _ h1]

theorem lookupDoc_map (st : Store) (f : Doc → Doc) (hf : ∀ d, (f d).path = d.path)
    (q : List String) : Store.lookupDoc (st.map f) q = (st.lookupDoc q).map f := by
  unfold Store.lookupDoc
  induction st with
  | nil => rfl
  | cons d rest ih =>
    by_cases h : d.path = q
    · simp [List.find?_cons, hf, h]
    · have hb : (d.path == q) = false := by simpa using h
      simpa [List.find?_cons, hf, hb] using ih

/-- The update route when validation and coercion pass, the id string
addresses an existing document and both store calls succeed. -/
theorem updatePost_ok (env : Env) (st : Store) (x : String) (p : List String)
    (body : Option Json) (d : Doc)
    (t c a : String) (hx : x ≠ "") (hp : docRef x = .ok p) (hd : st.lookupDoc p = some d)
    (ht : Json.truthy (fieldOf body "title") = true)
    (hc : Json.truthy (fieldOf body "content") = true)
    (ha : Json.truthy (fieldOf body "author") = true)
    (st_t : jsStringOf (fieldOf body "title") = .ok t)
    (st_c : jsStringOf (fieldOf body "content") = .ok c)
    (st_a : jsStringOf (fieldOf body "author") = .ok a)
    (hf0 : env.fault 0 = none) (hf1 : env.fault 1 = none) :
    updatePost env st ⟨some (.str x), body⟩ =
      (⟨200, .ok⟩,
        st.map (fun e => if e.path = p then
          { e with data := setFields [("title", .str t), ("content", .str c),
                                      ("author", .str a)] e.data }
          else e)) := by
  rw [← bodyField_eq_fieldOf (some (.str x))] at ht hc ha st_t st_c st_a
  have hs : jsStringOf (some (.str x)) = .ok x := rfl
  simp [updatePost, updatePostTry, truthy_str hx, ht, hc, ha, st_t, st_c, st_a, hs, hp,
    Store.get, hf0, hd, Store.update, hf1, bind, Except.bind, pure, Except.pure]

theorem orEmpty_str (s : String) : orEmpty (some (.str s)) = .str s := by
  by_cases h : s = "" <;> simp [orEmpty, FsVal.truthy, h]

/-- What a store looks like after a successful update of the document at `p`. -/
theorem lookupDoc_after_update (st : Store) (p : List String) (d : Doc)
    (fields : List (String × FsVal)) (hd : st.lookupDoc p = some d) (q : List String) :
    Store.lookupDoc (st.map (fun e => if e.path = p then
        { e with data := setFields fields e.data } else e)) q
      = if q = p then some ⟨p, setFields fields d.data⟩ else st.lookupDoc q := by
  rw [lookupDoc_map _ _ (fun e => by by_cases h : e.path = p <;> simp [h])]
  by_cases hq : q = p
  · subst hq
    simp [hd, lookupDoc_path hd]
  · simp only [hq, if_false]
    cases hl : st.lookupDoc q with
    | none => rfl
    | some e =>
      have he : e.path = q := lookupDoc_path hl
      have : ¬ e.path = p := fun h => hq (he ▸ h)
      simp [this]

/-! ### How each handler changes the store -/

theorem getPosts_store (env : Env) (st : Store) (req : Request) :
    (getPosts env st req).2 = st := by
  simp only [getPosts, getPostsTry, Store.orderByDesc]
  cases env.fault 0 <;> simp [bind, Except.bind, pure, Except.pure]

theorem getPostById_store (env : Env) (st : Store) (req : Request) :
    (getPostById env st req).2 = st := by
  simp only [getPostById, getPostByIdTry]
  split_ifs
  · rfl
  · cases jsStringOf req.queryId with
    | error e => rfl
    | ok path =>
      cases h2 : docRef path with
      | error e => simp [bind, Except.bind, h2]
      | ok ref =>
        cases hf : env.fault 0 with
        | some f => simp [bind, Except.bind, h2, Store.get, hf]
        | none =>
          cases hl : st.lookupDoc ref <;>
            simp [bind, Except.bind, h2, Store.get, hf, hl, pure, Except.pure]

theorem createPost_store (env : Env) (st : Store) (req : Request) :
    (createPost env st req).2 = st
    ∨ (st.lookupDoc [env.autoId] = none ∧ ∃ t c a, (createPost env st req).2 =
        st ++ [⟨[env.autoId], [("title", .str t), ("content", .str c), ("author", .str a),
                             ("createdAt", .timestamp env.now)]⟩]) := by
  simp only [createPost, createPostTry]
  split_ifs with hv
  · exact Or.inl rfl
  · cases jsStringOf (bodyField req "title") with
    | error e => exact Or.inl rfl
    | ok t =>
      cases jsStringOf (bodyField req "content") with
      | error e => exact Or.inl rfl
      | ok c =>
        cases jsStringOf (bodyField req "author") with
        | error e => exact Or.inl rfl
        | ok a =>
          cases hf : env.fault 0 with
          | some f => left; simp [bind, Except.bind, Store.add, hf]
          | none =>
            cases hl : st.lookupDoc [env.autoId] with
            | some d => left; simp [bind, Except.bind, Store.add, hf, hl]
            | none =>
              right
              exact ⟨rfl, t, c, a, by
                simp [bind, Except.bind, Store.add, hf, hl, pure, Except.pure,
                  WriteVal.resolve]⟩

theorem updatePost_store (env : Env) (st : Store) (req : Request) :
    (updatePost env st req).2 = st
    ∨ ∃ p t c a, (updatePost env st req).2 =
        st.map (fun e => if e.path = p then
          { e with data := setFields [("title", .str t), ("content", .str c),
                                      ("author", .str a)] e.data }
          else e) := by
  simp only [updatePost, updatePostTry]
  split_ifs with hq hv
  · exact Or.inl rfl
  · exact Or.inl rfl
  · cases jsStringOf req.queryId with
    | error e => exact Or.inl rfl
    | ok path =>
      cases h2 : docRef path with
      | error e => left; simp [bind, Except.bind, h2]
      | ok ref =>
        cases hf : env.fault 0 with
        | some f => left; simp [bind, Except.bind, h2, Store.get, hf]
        | none =>
          cases hl : st.lookupDoc ref with
          | none => left; simp [bind, Except.bind, h2, Store.get, hf, hl, pure, Except.pure]
          | some d =>
            cases jsStringOf (bodyField req "title") with
            | error e => left; simp [bind, Except.bind, h2, Store.get, hf, hl]
            | ok t =>
              cases jsStringOf (bodyField req "content") with
              | error e => left; simp [bind, Except.bind, h2, Store.get, hf, hl]
              | ok c =>
                cases jsStringOf (bodyField req "author") with
                | error e => left; simp [bind, Except.bind, h2, Store.get, hf, hl]
                | ok a =>
                  cases hf1 : env.fault 1 with
                  | some f =>
                    left; simp [bind, Except.bind, h2, Store.get, hf, hl, Store.update, hf1]
                  | none =>
                    right
                    exact ⟨ref, t, c, a, by
                      simp [bind, Except.bind, h2, Store.get, hf, hl, Store.update, hf1, pure,
                        Except.pure]⟩

theorem deletePost_store (env : Env) (st : Store) (req : Request) :
    (deletePost env st req).2 = st
    ∨ ∃ p, (deletePost env st req).2 = st.filter (fun d => d.path != p) := by
  simp only [deletePost, deletePostTry]
  split_ifs with hq
  · exact Or.inl rfl
  · cases jsStringOf req.queryId with
    | error e => exact Or.inl rfl
    | ok path =>
      cases h2 : docRef path with
      | error e => left; simp [bind, Except.bind, h2]
      | ok ref =>
        cases hf : env.fault 0 with
        | some f => left; simp [bind, Except.bind, h2, Store.get, hf]
        | none =>
          cases hl : st.lookupDoc ref with
          | none => left; simp [bind, Except.bind, h2, Store.get, hf, hl, pure, Except.pure]
          | some d =>
            cases hf1 : env.fault 1 with
            | some f =>
              left; simp [bind, Except.bind, h2, Store.get, hf, hl, Store.delete, hf1]
            | none =>
              right
              exact ⟨ref, by
                simp [bind, Except.bind, h2, Store.get, hf, hl, Store.delete, hf1, pure,
                  Except.pure]⟩

/-! ### The invariant of the reachable stores -/

theorem lookupDoc_none_iff (st : Store) (p : List String) :
    st.lookupDoc p = none ↔ p ∉ st.map Doc.path := by
  unfold Store.lookupDoc
  simp only [List.find?_eq_none, List.mem_map, not_exists, not_and]
  constructor
  · intro h d hd e
    exact h d hd (by simp [e])
  · intro h d hd e
    exact h d hd (by simpa using e)

theorem postShaped_setFields (d : Doc) (t c a : String) (h : PostShaped d) :
    PostShaped { d with data := setFields [("title", .str t), ("content", .str c),
                                           ("author", .str a)] d.data } := by
  obtain ⟨i, t0, c0, a0, ms, rfl⟩ := h
  refine ⟨i, t, c, a, ms, ?_⟩
  simp [setFields, setField]

theorem storeInv_handle (r : Route) (env : Env) (req : Request) (st : Store)
    (h : StoreInv st) : StoreInv (handle r env st req).2 := by
  obtain ⟨hshape, hnd⟩ := h
  cases r with
  | getPosts => simp only [handle]; rw [getPosts_store]; exact ⟨hshape, hnd⟩
  | getPostById => simp only [handle]; rw [getPostById_store]; exact ⟨hshape, hnd⟩
  | createPost =>
    simp only [handle]
    rcases createPost_store env st req with e | ⟨hfresh, t, c, a, e⟩
    · rw [e]; exact ⟨hshape, hnd⟩
    · rw [e]
      constructor
      · intro d hd
        rcases List.mem_append.mp hd with hd | hd
        · exact hshape d hd
        · rw [List.mem_singleton] at hd
          subst hd
          exact ⟨env.autoId, t, c, a, env.now, rfl⟩
      · rw [List.map_append, List.nodup_append]
        refine ⟨hnd, by simp, ?_⟩
        intro y hy hy2
        have : y = [env.autoId] := by simpa using hy2
        subst this
        exact (lookupDoc_none_iff st _).mp hfresh hy
  | updatePost =>
    simp only [handle]
    rcases updatePost_store env st req with e | ⟨p, t, c, a, e⟩
    · rw [e]; exact ⟨hshape, hnd⟩
    · rw [e]
      constructor
      · intro d hd
        obtain ⟨d0, hd0, rfl⟩ := List.mem_map.mp hd
        by_cases hx : d0.path = p
        · simp only [hx, if_true]
          have := postShaped_setFields d0 t c a (hshape d0 hd0)
          simpa [hx] using this
        · simp only [hx, if_false]
          exact hshape d0 hd0
      · have : (st.map (fun e => if e.path = p then
            { e with data := setFields [("title", .str t), ("content", .str c),
                                        ("author", .str a)] e.data }
            else e)).map Doc.path = st.map Doc.path := by
          rw [List.map_map]
          apply List.map_congr_left
          intro e _
          by_cases h : e.path = p <;> simp [h]
        rw [this]
        exact hnd
  | deletePost =>
    simp only [handle]
    rcases deletePost_store env st req with e | ⟨p, e⟩
    · rw [e]; exact ⟨hshape, hnd⟩
    · rw [e]
      constructor
      · intro d hd
        exact hshape d (List.mem_filter.mp hd).1
      · exact (List.filter_sublist st).map Doc.path |>.nodup hnd

theorem storeInv_of_reachable {st : Store} (h : Reachable st) : StoreInv st := by
  induction h with
  | empty => exact ⟨by simp, by simp⟩
  | step r env req _ ih => exact storeInv_handle r env req _ ih

/-! ### The ordered query -/

theorem field_createdAt_of_shaped {d : Doc} (h : PostShaped d) :
    ∃ ms, d.field "createdAt" = some (.timestamp ms) := by
  obtain ⟨i, t, c, a, ms, rfl⟩ := h
  exact ⟨ms, by simp [Doc.field, List.lookup]⟩

/-- Descending order of the sort keys, read on two timestamps. -/
theorem le_of_orderKey_le {a b : Doc} {ta tb : Int}
    (ha : a.field "createdAt" = some (.timestamp ta))
    (hb : b.field "createdAt" = some (.timestamp tb))
    (h : Doc.orderKey "createdAt" b ≤ Doc.orderKey "createdAt" a) : tb ≤ ta := by
  simp only [Doc.orderKey, ha, hb, Option.getD_some, FsVal.orderKey] at h
  rw [Prod.Lex.le_iff] at h
  rcases h with h | ⟨h, _⟩
  · rw [Prod.Lex.lt_iff] at h
    rcases h with h | ⟨_, h⟩
    · exact absurd h (lt_irrefl _)
    · rw [Prod.Lex.lt_iff] at h
      rcases h with h | ⟨h, _⟩
      · exact le_of_lt h
      · exact le_of_eq h
  · have h2 := congrArg (fun p => (ofLex (ofLex p).2).1) h
    exact le_of_eq h2

/-- The ordered query on a store that satisfies the invariant: a permutation
of the whole store, newest first. -/
theorem orderByDesc_of_inv (env : Env) (st : Store) (hinv : StoreInv st)
    (hf : env.fault 0 = none) :
    ∃ ds, st.orderByDesc env 0 "createdAt" = .ok ds ∧ ds.Perm st ∧ NewestFirst ds
      ∧ ds.Pairwise (fun a b =>
          Doc.orderKey "createdAt" b ≤ Doc.orderKey "createdAt" a) := by
  have hfilter : st.filter (fun d => d.path.length == 1 && (d.field "createdAt").isSome)
      = st := by
    rw [List.filter_eq_self]
    intro d hd
    obtain ⟨i, t, c, a, ms, rfl⟩ := hinv.1 d hd
    simp [Doc.field, List.lookup]
  haveI : IsTotal Doc (fun a b => Doc.orderKey "createdAt" b ≤ Doc.orderKey "createdAt" a) :=
    ⟨fun a b => le_total _ _⟩
  haveI : IsTrans Doc (fun a b => Doc.orderKey "createdAt" b ≤ Doc.orderKey "createdAt" a) :=
    ⟨fun a b c hab hbc => le_trans hbc hab⟩
  have hsorted := List.sorted_insertionSort
    (fun a b => Doc.orderKey "createdAt" b ≤ Doc.orderKey "createdAt" a) st
  refine ⟨st.insertionSort
    (fun a b => Doc.orderKey "createdAt" b ≤ Doc.orderKey "createdAt" a), ?_, ?_, ?_, hsorted⟩
  · simp [Store.orderByDesc, hf, hfilter]
  · exact List.perm_insertionSort _ _
  · exact List.Pairwise.imp (fun h ta tb ha hb => le_of_orderKey_le ha hb h) hsorted

/-- Two distinct members of a list occur in it in one order or the other. -/
theorem sublist_pair_of_mem {α : Type} {a b : α} (hne : a ≠ b) :
    ∀ {l : List α}, a ∈ l → b ∈ l → [a, b].Sublist l ∨ [b, a].Sublist l
  | [], ha, _ => by simp at ha
  | c :: rest, ha, hb => by
    rcases List.mem_cons.mp ha with rfl | ha2
    · rcases List.mem_cons.mp hb with hb1 | hb2
      · exact absurd hb1.symm hne
      · exact Or.inl (List.Sublist.cons₂ _ (List.singleton_sublist.mpr hb2))
    · rcases List.mem_cons.mp hb with rfl | hb2
      · exact Or.inr (List.Sublist.cons₂ _ (List.singleton_sublist.mpr ha2))
      · rcases sublist_pair_of_mem hne ha2 hb2 with h | h
        · exact Or.inl (List.Sublist.cons _ h)
        · exact Or.inr (List.Sublist.cons _ h)

theorem getPosts_of_query (env : Env) (st : Store) (req : Request) (ds : List Doc)
    (h : st.orderByDesc env 0 "createdAt" = .ok ds) :
    getPosts env st req = (⟨200, .posts (ds.map postOfDoc)⟩, st) := by
  simp [getPosts, getPostsTry, h, bind, Except.bind, pure, Except.pure]

/-! ### The embedding evaluated on concrete values -/

theorem toISOString_epoch : toISOString 0 = "1970-01-01T00:00:00.000Z" := by decide

theorem toISOString_before_epoch : toISOString (-1) = "1969-12-31T23:59:59.999Z" := by decide

theorem toISOString_leap_day : toISOString 951782400000 = "2000-02-29T00:00:00.000Z" := by
  decide

theorem toISOString_last_instant :
    toISOString 253402300799999 = "9999-12-31T23:59:59.999Z" := by decide

theorem jsString_nested_array :
    Json.jsString (.arr [.num "1", .null, .arr [.str "a", .arr []], .bool true, .num "1e+21"])
      = .ok "1,,a,,true,1e+21" := by rfl

theorem jsString_plain_object : Json.jsString (.obj [("a", .num "1")]) = .ok "[object Object]" := by
  rfl

theorem docRef_examples :
    docRef "p1" = .ok ["p1"] ∧ docRef "p1/" = .ok ["p1"] ∧ docRef "/p1" = .ok ["p1"]
    ∧ docRef "a/b/c" = .ok ["a", "b", "c"]
    ∧ docRef "a/b" = .error ⟨"documentPath must point to a document: odd number of components"⟩
    ∧ docRef "/" = .error ⟨"documentPath must point to a document: odd number of components"⟩
    ∧ docRef "a//b" = .error ⟨"documentPath is not a valid resource path: paths must not contain //"⟩ :=
  ⟨rfl, rfl, rfl, rfl, rfl, rfl, rfl⟩

theorem getPosts_two_posts :
    (getPosts (calmEnv 9 "n9")
      [⟨["n1"], [("title", .str "A"), ("content", .str "B"), ("author", .str "C"),
                 ("createdAt", .timestamp 1000)]⟩,
       ⟨["n2"], [("title", .str "D"), ("content", .str "E"), ("author", .str "F"),
                 ("createdAt", .timestamp 1001)]⟩,
       ⟨["n3"], [("title", .str "untimed")]⟩,
       ⟨["n1", "notes", "k"], [("title", .str "nested"), ("createdAt", .timestamp 5)]⟩]
      ⟨none, none⟩).1
      = ⟨200, .posts [⟨"n2", .str "D", .str "E", .str "F", some "1970-01-01T00:00:01.001Z"⟩,
                       ⟨"n1", .str "A", .str "B", .str "C", some "1970-01-01T00:00:01.000Z"⟩]⟩ := by
  decide

/-! ## Claims -/

/-- C1: when at least one of title, content, author of the request body is
missing, null or the empty string, `POST /createPost` answers 400 with the
"Missing fields" error and leaves the store as it was; `PUT /updatePost` does
the same for every id that passes its id check, and for any id at all it
answers 400 without touching the store. -/
theorem C1_missing_field_is_400 (env : Env) (st : Store) (q body : Option Json)
    (h : Missing (fieldOf body "title") ∨ Missing (fieldOf body "content")
      ∨ Missing (fieldOf body "author")) :
    createPost env st ⟨q, body⟩
        = (⟨400, .error "Missing fields. Required: title, content, author"⟩, st)
    ∧ (Json.truthy q = true →
        updatePost env st ⟨q, body⟩
          = (⟨400, .error "Missing fields. Required: title, content, author"⟩, st))
    ∧ (updatePost env st ⟨q, body⟩).1.status = 400
    ∧ (updatePost env st ⟨q, body⟩).2 = st := by
  have hf : Json.truthy (bodyField ⟨q, body⟩ "title") = false
      ∨ Json.truthy (bodyField ⟨q, body⟩ "content") = false
      ∨ Json.truthy (bodyField ⟨q, body⟩ "author") = false := by
    simp only [bodyField_eq_fieldOf]
    rcases h with h | h | h
    · exact Or.inl (truthy_false_of_missing h)
    · exact Or.inr (Or.inl (truthy_false_of_missing h))
    · exact Or.inr (Or.inr (truthy_false_of_missing h))
  refine ⟨createPost_of_falsy env st _ hf, fun hq => updatePost_of_falsy env st _ hq hf, ?_⟩
  cases hq : Json.truthy q with
  | true => rw [updatePost_of_falsy env st ⟨q, body⟩ hq hf]; exact ⟨rfl, rfl⟩
  | false => rw [updatePost_of_no_id env st ⟨q, body⟩ hq]; exact ⟨rfl, rfl⟩

/-- Witness of C1: a body whose content is the empty string, sent to a store
holding one post. -/
theorem C1_missing_field_is_400_witness :
    (Missing (fieldOf (postBody (.str "T") (.str "") (.str "A")) "title")
      ∨ Missing (fieldOf (postBody (.str "T") (.str "") (.str "A")) "content")
      ∨ Missing (fieldOf (postBody (.str "T") (.str "") (.str "A")) "author"))
    ∧ createPost (calmEnv 5 "n1") [⟨["p1"], [("title", .str "old")]⟩]
          ⟨some (.str "p1"), postBody (.str "T") (.str "") (.str "A")⟩
        = (⟨400, .error "Missing fields. Required: title, content, author"⟩,
            [⟨["p1"], [("title", .str "old")]⟩])
    ∧ updatePost (calmEnv 5 "n1") [⟨["p1"], [("title", .str "old")]⟩]
          ⟨some (.str "p1"), postBody (.str "T") (.str "") (.str "A")⟩
        = (⟨400, .error "Missing fields. Required: title, content, author"⟩,
            [⟨["p1"], [("title", .str "old")]⟩]) :=
  have h : Missing (fieldOf (postBody (.str "T") (.str "") (.str "A")) "title")
      ∨ Missing (fieldOf (postBody (.str "T") (.str "") (.str "A")) "content")
      ∨ Missing (fieldOf (postBody (.str "T") (.str "") (.str "A")) "author") :=
    Or.inr (Or.inl (Or.inr (Or.inr rfl)))
  have k := C1_missing_field_is_400 (calmEnv 5 "n1") [⟨["p1"], [("title", .str "old")]⟩]
    (some (.str "p1")) (postBody (.str "T") (.str "") (.str "A")) h
  ⟨h, k.1, k.2.1 rfl⟩

/-- C2 (fails on the code): the empty array passes the validation `!title`
and `String([])` is the empty string, so after one `POST /createPost` with
title `[]` the reachable store holds a post whose title is the empty string. -/
theorem C2_empty_title_is_stored :
    Json.truthy (fieldOf (postBody (.arr []) (.str "x") (.str "y")) "title") = true
    ∧ createPost (calmEnv 1000 "n1") [] ⟨none, postBody (.arr []) (.str "x") (.str "y")⟩
      = (⟨201, .id "n1"⟩,
          [⟨["n1"], [("title", .str ""), ("content", .str "x"), ("author", .str "y"),
                     ("createdAt", .timestamp 1000)]⟩])
    ∧ Reachable [⟨["n1"], [("title", .str ""), ("content", .str "x"), ("author", .str "y"),
                           ("createdAt", .timestamp 1000)]⟩]
    ∧ Doc.field ⟨["n1"], [("title", .str ""), ("content", .str "x"), ("author", .str "y"),
                          ("createdAt", .timestamp 1000)]⟩ "title" = some (.str "") :=
  ⟨rfl, by decide,
   Reachable.step .createPost (calmEnv 1000 "n1")
    ⟨none, postBody (.arr []) (.str "x") (.str "y")⟩ Reachable.empty,
   rfl⟩

/-- C3: for non-empty strings title, content, author, when the store call
succeeds and the store generates an unused plain id X, `POST /createPost`
answers 201 `{id: X}` with X not previously in the store, and a following
`GET /getPostById?id=X` (whose store call succeeds) answers 200 with the post
X carrying exactly those three strings and the ISO text of the server clock as
`createdAt`. -/
theorem C3_create_then_get (env env2 : Env) (st : Store) (q b2 body : Option Json)
    (title content author : String)
    (ht : title ≠ "") (hc : content ≠ "") (ha : author ≠ "")
    (hbt : fieldOf body "title" = some (.str title))
    (hbc : fieldOf body "content" = some (.str content))
    (hba : fieldOf body "author" = some (.str author))
    (hf : env.fault 0 = none) (hid : PlainId env.autoId)
    (hfresh : st.lookupDoc [env.autoId] = none)
    (hf2 : env2.fault 0 = none) :
    (createPost env st ⟨q, body⟩).1 = ⟨201, .id env.autoId⟩
    ∧ st.lookupDoc [env.autoId] = none
    ∧ getPostById env2 (createPost env st ⟨q, body⟩).2 ⟨some (.str env.autoId), b2⟩
        = (⟨200, .post { id := env.autoId, title := .str title, content := .str content,
                         author := .str author,
                         createdAt := some (toISOString env.now) }⟩,
           (createPost env st ⟨q, body⟩).2) := by
  have hcreate := createPost_ok env st ⟨q, body⟩ title content author
    (by rw [bodyField_eq_fieldOf, hbt]; exact truthy_str ht)
    (by rw [bodyField_eq_fieldOf, hbc]; exact truthy_str hc)
    (by rw [bodyField_eq_fieldOf, hba]; exact truthy_str ha)
    (by rw [bodyField_eq_fieldOf, hbt]; rfl)
    (by rw [bodyField_eq_fieldOf, hbc]; rfl)
    (by rw [bodyField_eq_fieldOf, hba]; rfl) hf hfresh
  refine ⟨by rw [hcreate], hfresh, ?_⟩
  rw [hcreate, getPostById_str env2 _ env.autoId b2 hid hf2, lookupDoc_append_new _ hfresh]
  simp [postOfDoc, Doc.id, Doc.field, List.lookup, orEmpty, FsVal.truthy, ht, hc, ha,
    timestampToIso]

/-- Witness of C3: the end-to-end example of the specification, on a store
that already holds one post. -/
theorem C3_create_then_get_witness :
    (createPost (calmEnv 1730851200123 "n1") [⟨["p1"], [("title", .str "old")]⟩]
        ⟨none, postBody (.str "A") (.str "B") (.str "C")⟩).1 = ⟨201, .id "n1"⟩
    ∧ Store.lookupDoc [⟨["p1"], [("title", .str "old")]⟩] ["n1"] = none
    ∧ getPostById (calmEnv 1730851300000 "n2")
        (createPost (calmEnv 1730851200123 "n1") [⟨["p1"], [("title", .str "old")]⟩]
          ⟨none, postBody (.str "A") (.str "B") (.str "C")⟩).2 ⟨some (.str "n1"), none⟩
        = (⟨200, .post { id := "n1", title := .str "A", content := .str "B", author := .str "C",
                         createdAt := some "2024-11-06T00:00:00.123Z" }⟩,
           (createPost (calmEnv 1730851200123 "n1") [⟨["p1"], [("title", .str "old")]⟩]
            ⟨none, postBody (.str "A") (.str "B") (.str "C")⟩).2) :=
  C3_create_then_get (calmEnv 1730851200123 "n1") (calmEnv 1730851300000 "n2")
    [⟨["p1"], [("title", .str "old")]⟩] none none (postBody (.str "A") (.str "B") (.str "C"))
    "A" "B" "C" (by decide) (by decide) (by decide) rfl rfl rfl rfl
    ⟨by decide, by decide⟩ (by decide) rfl

/-- C4 (amended): for a store holding a post of plain id X (non-empty, no
`/`), a body whose title, content and author pass validation and convert by
`String()`, without a throw, to non-empty text, and succeeding store calls,
`PUT /updatePost?id=X` answers 200 `{ok: true}`; afterwards the post at X has
id X, exactly the new title, content and author as text, every other field (so
`createdAt`) as before, every other document reads as before, the paths of the
store are the same, and re-fetching X returns the new fields with the old
`createdAt`. -/
theorem C4_update_existing (env env2 : Env) (st : Store) (x : String) (body b2 : Option Json)
    (d : Doc) (t c a : String) (hx : PlainId x) (hd : st.lookupDoc [x] = some d)
    (ht : Json.truthy (fieldOf body "title") = true)
    (hc : Json.truthy (fieldOf body "content") = true)
    (ha : Json.truthy (fieldOf body "author") = true)
    (st_t : jsStringOf (fieldOf body "title") = .ok t)
    (st_c : jsStringOf (fieldOf body "content") = .ok c)
    (st_a : jsStringOf (fieldOf body "author") = .ok a)
    (_ht0 : t ≠ "") (_hc0 : c ≠ "") (_ha0 : a ≠ "")
    (hf0 : env.fault 0 = none) (hf1 : env.fault 1 = none) (hf2 : env2.fault 0 = none) :
    (updatePost env st ⟨some (.str x), body⟩).1 = ⟨200, .ok⟩
    ∧ (Store.lookupDoc (updatePost env st ⟨some (.str x), body⟩).2 [x]).map Doc.id = some x
    ∧ (Store.lookupDoc (updatePost env st ⟨some (.str x), body⟩).2 [x]).bind
          (fun e => e.field "title") = some (.str t)
    ∧ (Store.lookupDoc (updatePost env st ⟨some (.str x), body⟩).2 [x]).bind
          (fun e => e.field "content") = some (.str c)
    ∧ (Store.lookupDoc (updatePost env st ⟨some (.str x), body⟩).2 [x]).bind
          (fun e => e.field "author") = some (.str a)
    ∧ (∀ k, k ≠ "title" → k ≠ "content" → k ≠ "author" →
        (Store.lookupDoc (updatePost env st ⟨some (.str x), body⟩).2 [x]).bind
          (fun e => e.field k) = d.field k)
    ∧ (∀ p, p ≠ [x] →
        Store.lookupDoc (updatePost env st ⟨some (.str x), body⟩).2 p = st.lookupDoc p)
    ∧ (updatePost env st ⟨some (.str x), body⟩).2.map Doc.path = st.map Doc.path
    ∧ getPostById env2 (updatePost env st ⟨some (.str x), body⟩).2 ⟨some (.str x), b2⟩
        = (⟨200, .post { id := x, title := .str t, content := .str c, author := .str a,
                         createdAt := timestampToIso (d.field "createdAt") }⟩,
           (updatePost env st ⟨some (.str x), body⟩).2) := by
  have hup := updatePost_ok env st x [x] body d t c a hx.1 (docRef_plain hx) hd ht hc ha
    st_t st_c st_a hf0 hf1
  have hlk := lookupDoc_after_update st [x] d
    [("title", .str t), ("content", .str c), ("author", .str a)] hd
  have hfs := field_setFields d.data (.str t) (.str c) (.str a)
  rw [hup]
  refine ⟨rfl, ?_, ?_, ?_, ?_, ?_, ?_, ?_, ?_⟩
  · simp [hlk, Doc.id]
  · simp [hlk, Doc.field, hfs.1]
  · simp [hlk, Doc.field, hfs.2.1]
  · simp [hlk, Doc.field, hfs.2.2]
  · intro k h1 h2 h3
    simp [hlk, Doc.field, field_setFields_other d.data _ _ _ k h1 h2 h3]
  · intro p hp
    simp [hlk, hp]
  · rw [List.map_map]
    apply List.map_congr_left
    intro e _
    by_cases h : e.path = [x] <;> simp [h]
  · rw [getPostById_str env2 _ x b2 hx hf2]
    simp only [hlk, if_true]
    simp [postOfDoc, Doc.id, Doc.field, hfs.1, hfs.2.1, hfs.2.2, orEmpty_str,
      field_setFields_other d.data _ _ _ "createdAt" (by decide) (by decide) (by decide)]

/-- Witness of C4: post "p1" of a two-post store is updated with a string, the
number 1e21 and an array; "p2" is untouched. -/
theorem C4_update_existing_witness :
    (updatePost (calmEnv 9 "n1")
        [⟨["p1"], [("title", .str "a"), ("content", .str "b"), ("author", .str "c"),
                   ("createdAt", .timestamp 1000)]⟩, ⟨["p2"], [("title", .str "z")]⟩]
        ⟨some (.str "p1"), postBody (.str "T") (.num "1e+21") (.arr [.str "x", .str "y"])⟩)
      = (⟨200, .ok⟩,
        [⟨["p1"], [("title", .str "T"), ("content", .str "1e+21"), ("author", .str "x,y"),
                   ("createdAt", .timestamp 1000)]⟩, ⟨["p2"], [("title", .str "z")]⟩]) :=
  Prod.ext
    (C4_update_existing (calmEnv 9 "n1") (calmEnv 10 "n2")
      [⟨["p1"], [("title", .str "a"), ("content", .str "b"), ("author", .str "c"),
                 ("createdAt", .timestamp 1000)]⟩, ⟨["p2"], [("title", .str "z")]⟩]
      "p1" (postBody (.str "T") (.num "1e+21") (.arr [.str "x", .str "y"])) none
      ⟨["p1"], [("title", .str "a"), ("content", .str "b"), ("author", .str "c"),
                 ("createdAt", .timestamp 1000)]⟩ "T" "1e+21" "x,y"
      ⟨by decide, by decide⟩ (by decide) rfl rfl rfl rfl rfl rfl
      (by decide) (by decide) (by decide) rfl rfl rfl).1
    (by decide)

/-- Counterexample to C4 as stated: a body that passes validation but whose
title is an object with an own `toString` key makes `String(title)` throw, so
the update of the existing post "p1" answers 500 and changes nothing. -/
theorem C4_counterexample :
    Json.truthy (fieldOf (postBody (.obj [("toString", .num "1")]) (.str "B") (.str "C")) "title")
        = true
    ∧ Json.truthy (fieldOf (postBody (.obj [("toString", .num "1")]) (.str "B") (.str "C"))
        "content") = true
    ∧ Json.truthy (fieldOf (postBody (.obj [("toString", .num "1")]) (.str "B") (.str "C"))
        "author") = true
    ∧ updatePost (calmEnv 9 "n1")
        [⟨["p1"], [("title", .str "a"), ("content", .str "b"), ("author", .str "c"),
                   ("createdAt", .timestamp 1000)]⟩]
        ⟨some (.str "p1"), postBody (.obj [("toString", .num "1")]) (.str "B") (.str "C")⟩
      = (⟨500, .error "Failed to update post."⟩,
        [⟨["p1"], [("title", .str "a"), ("content", .str "b"), ("author", .str "c"),
                   ("createdAt", .timestamp 1000)]⟩]) := by
  refine ⟨rfl, rfl, rfl, ?_⟩
  decide

/-- C5 (amended): for a plain id X (non-empty, no `/`) and succeeding store
calls: if X is not in the store, `GET /getPostById?id=X` answers 404 "Post not
found." and leaves the store alone; if X is in the store,
`DELETE /deletePost?id=X` answers 200 `{ok: true}`, the store afterwards is the
old one without the document X (every other document reads as before), and a
following `GET /getPostById?id=X` answers 404. -/
theorem C5_get_absent_and_delete (env env2 : Env) (st : Store) (x : String) (b b2 : Option Json)
    (hx : PlainId x) (hf0 : env.fault 0 = none) (hf1 : env.fault 1 = none)
    (hf2 : env2.fault 0 = none) :
    (st.lookupDoc [x] = none →
      getPostById env st ⟨some (.str x), b⟩ = (⟨404, .error "Post not found."⟩, st))
    ∧ ((st.lookupDoc [x]).isSome = true →
        deletePost env st ⟨some (.str x), b⟩
            = (⟨200, .ok⟩, st.filter (fun d => d.path != [x]))
        ∧ (∀ p, p ≠ [x] →
            Store.lookupDoc (deletePost env st ⟨some (.str x), b⟩).2 p = st.lookupDoc p)
        ∧ Store.lookupDoc (deletePost env st ⟨some (.str x), b⟩).2 [x] = none
        ∧ getPostById env2 (deletePost env st ⟨some (.str x), b⟩).2 ⟨some (.str x), b2⟩
            = (⟨404, .error "Post not found."⟩, (deletePost env st ⟨some (.str x), b⟩).2)) := by
  constructor
  · intro habs
    rw [getPostById_str env st x b hx hf0, habs]
    rfl
  · intro hin
    obtain ⟨d, hd⟩ := Option.isSome_iff_exists.mp hin
    have hdel : deletePost env st ⟨some (.str x), b⟩
        = (⟨200, .ok⟩, st.filter (fun d => d.path != [x])) := by
      have hs : jsStringOf (some (.str x)) = .ok x := rfl
      simp [deletePost, deletePostTry, truthy_str hx.1, hs, docRef_plain hx, Store.get, hf0,
        hd, Store.delete, hf1, bind, Except.bind, pure, Except.pure]
    refine ⟨hdel, ?_, ?_, ?_⟩
    · intro p hp
      rw [hdel]
      exact lookupDoc_filter_other st hp
    · rw [hdel]
      exact lookupDoc_filter_self st [x]
    · rw [hdel, getPostById_str env2 _ x b2 hx hf2, lookupDoc_filter_self]
      rfl

/-- Witness of C5: id "p2" is read while absent, and id "p1" is deleted from a
store of two posts. -/
theorem C5_get_absent_and_delete_witness :
    getPostById (calmEnv 7 "n1") [⟨["p1"], [("title", .str "a")]⟩] ⟨some (.str "p2"), none⟩
        = (⟨404, .error "Post not found."⟩, [⟨["p1"], [("title", .str "a")]⟩])
    ∧ deletePost (calmEnv 7 "n1") [⟨["p1"], [("title", .str "a")]⟩, ⟨["p3"], []⟩]
          ⟨some (.str "p1"), none⟩
        = (⟨200, .ok⟩, [⟨["p3"], []⟩]) :=
  ⟨(C5_get_absent_and_delete (calmEnv 7 "n1") (calmEnv 8 "n2") [⟨["p1"], [("title", .str "a")]⟩]
      "p2" none none ⟨by decide, by decide⟩ rfl rfl rfl).1 (by decide),
   ((C5_get_absent_and_delete (calmEnv 7 "n1") (calmEnv 8 "n2")
      [⟨["p1"], [("title", .str "a")]⟩, ⟨["p3"], []⟩]
      "p1" none none ⟨by decide, by decide⟩ rfl rfl rfl).2 (by decide)).1⟩

/-- Counterexample to C5 as stated: the non-empty id "a/b" is not in the
store, yet `collection.doc("a/b")` does not address a document and throws, so
`GET /getPostById?id=a/b` answers 500 although every store call would
succeed. -/
theorem C5_counterexample :
    getPostById (calmEnv 7 "n1") [⟨["p1"], [("title", .str "a")]⟩] ⟨some (.str "a/b"), none⟩
      = (⟨500, .error "Failed to fetch post."⟩, [⟨["p1"], [("title", .str "a")]⟩]) := by
  decide

/-- C6 (amended): for a plain id X (non-empty, no `/`) that is not in the
store and a succeeding store call, `DELETE /deletePost?id=X` and
`PUT /updatePost?id=X` with a body that passes validation both answer 404
"Post not found." and leave the store exactly as it was. -/
theorem C6_absent_id_is_404 (env : Env) (st : Store) (x : String) (b body : Option Json)
    (hx : PlainId x) (habs : st.lookupDoc [x] = none) (hf0 : env.fault 0 = none) :
    deletePost env st ⟨some (.str x), b⟩ = (⟨404, .error "Post not found."⟩, st)
    ∧ (Json.truthy (fieldOf body "title") = true →
        Json.truthy (fieldOf body "content") = true →
        Json.truthy (fieldOf body "author") = true →
        updatePost env st ⟨some (.str x), body⟩ = (⟨404, .error "Post not found."⟩, st)) := by
  have hs : jsStringOf (some (.str x)) = .ok x := rfl
  constructor
  · simp [deletePost, deletePostTry, truthy_str hx.1, hs, docRef_plain hx, Store.get, hf0,
      habs, bind, Except.bind, pure, Except.pure, notFound]
  · intro ht hc ha
    rw [← bodyField_eq_fieldOf (some (.str x))] at ht hc ha
    simp [updatePost, updatePostTry, truthy_str hx.1, ht, hc, ha, hs, docRef_plain hx,
      Store.get, hf0, habs, bind, Except.bind, pure, Except.pure, notFound]

/-- Witness of C6: id "p9" is neither deleted from nor created in a store that
holds only "p1". -/
theorem C6_absent_id_is_404_witness :
    deletePost (calmEnv 7 "n1") [⟨["p1"], [("title", .str "a")]⟩] ⟨some (.str "p9"), none⟩
        = (⟨404, .error "Post not found."⟩, [⟨["p1"], [("title", .str "a")]⟩])
    ∧ updatePost (calmEnv 7 "n1") [⟨["p1"], [("title", .str "a")]⟩]
          ⟨some (.str "p9"), postBody (.str "T") (.num "3") (.arr [])⟩
        = (⟨404, .error "Post not found."⟩, [⟨["p1"], [("title", .str "a")]⟩]) :=
  ⟨(C6_absent_id_is_404 (calmEnv 7 "n1") [⟨["p1"], [("title", .str "a")]⟩] "p9" none
      (postBody (.str "T") (.num "3") (.arr [])) ⟨by decide, by decide⟩ (by decide) rfl).1,
   (C6_absent_id_is_404 (calmEnv 7 "n1") [⟨["p1"], [("title", .str "a")]⟩] "p9" none
      (postBody (.str "T") (.num "3") (.arr [])) ⟨by decide, by decide⟩ (by decide) rfl).2
      rfl rfl rfl⟩

/-- Counterexample to C6 as stated, on a store whose only document has id
"p1": for the non-empty id "a/b", which is not in the store,
`collection.doc("a/b")` throws and both routes answer 500; and for the id
"p1/", which is the id of no document, the client drops the empty segment and
addresses "p1", so `DELETE /deletePost?id=p1/` answers 200 and removes it. -/
theorem C6_counterexample :
    deletePost (calmEnv 7 "n1") [⟨["p1"], [("title", .str "a")]⟩] ⟨some (.str "a/b"), none⟩
        = (⟨500, .error "Failed to delete post."⟩, [⟨["p1"], [("title", .str "a")]⟩])
    ∧ updatePost (calmEnv 7 "n1") [⟨["p1"], [("title", .str "a")]⟩]
          ⟨some (.str "a/b"), postBody (.str "T") (.str "B") (.str "C")⟩
        = (⟨500, .error "Failed to update post."⟩, [⟨["p1"], [("title", .str "a")]⟩])
    ∧ Doc.id ⟨["p1"], [("title", .str "a")]⟩ = "p1"
    ∧ deletePost (calmEnv 7 "n1") [⟨["p1"], [("title", .str "a")]⟩] ⟨some (.str "p1/"), none⟩
        = (⟨200, .ok⟩, []) := by
  decide

/-- C7: in every store reachable through the handlers, when the store call
succeeds, `GET /getPosts` answers 200 `{posts: L}` where L is the image of a
permutation of the store (each stored post exactly once, no id twice), every
post carries the ISO text of its timestamp, and the list is ordered by
`createdAt` descending; for the empty store L is empty; and after creating P1
at time t1 and then P2 at time t2 > t1, P2 appears before P1 in L. -/
theorem C7_list_newest_first (st : Store) (env : Env) (req : Request)
    (hreach : Reachable st) (hf : env.fault 0 = none) :
    (∃ ds : List Doc,
        getPosts env st req = (⟨200, .posts (ds.map postOfDoc)⟩, st)
        ∧ ds.Perm st ∧ NewestFirst ds
        ∧ (∀ d ∈ ds, ∃ ms, d.field "createdAt" = some (.timestamp ms)
            ∧ (postOfDoc d).createdAt = some (toISOString ms))
        ∧ ((ds.map postOfDoc).map Post.id).Nodup)
    ∧ (st = [] → getPosts env st req = (⟨200, .posts []⟩, []))
    ∧ (∀ (env1 env2 : Env) (req1 req2 : Request) (x1 x2 : String),
        (createPost env1 st req1).1 = ⟨201, .id x1⟩ →
        (createPost env2 (createPost env1 st req1).2 req2).1 = ⟨201, .id x2⟩ →
        env1.now < env2.now →
        ∃ L, getPosts env (createPost env2 (createPost env1 st req1).2 req2).2 req
              = (⟨200, .posts L⟩, (createPost env2 (createPost env1 st req1).2 req2).2)
          ∧ [x2, x1].Sublist (L.map Post.id)) := by
  refine ⟨?_, ?_, ?_⟩
  · have hinv := storeInv_of_reachable hreach
    obtain ⟨ds, hq, hperm, hnew, _⟩ := orderByDesc_of_inv env st hinv hf
    refine ⟨ds, getPosts_of_query env st req ds hq, hperm, hnew, ?_, ?_⟩
    · intro d hd
      obtain ⟨ms, hms⟩ := field_createdAt_of_shaped (hinv.1 d (hperm.subset hd))
      exact ⟨ms, hms, by simp [postOfDoc, hms, timestampToIso, FsVal.truthy]⟩
    · have hids : (ds.map postOfDoc).map Post.id = ds.map Doc.id := by
        rw [List.map_map]; rfl
      have hpaths : ds.map Doc.path = (ds.map Doc.id).map (fun i => [i]) := by
        rw [List.map_map]
        apply List.map_congr_left
        intro d hd
        obtain ⟨i, t, c, a, ms, rfl⟩ := hinv.1 d (hperm.subset hd)
        simp [Doc.id]
      have hnd : (ds.map Doc.path).Nodup := (hperm.map Doc.path).nodup_iff.mpr hinv.2
      rw [hids]
      rw [hpaths] at hnd
      exact List.Nodup.of_map _ hnd
  · intro he
    subst he
    simp [getPosts, getPostsTry, Store.orderByDesc, hf, bind, Except.bind, pure, Except.pure]
  · intro env1 env2 req1 req2 x1 x2 h1 h2 hlt
    have hreach2 : Reachable (createPost env2 (createPost env1 st req1).2 req2).2 :=
      Reachable.step .createPost env2 req2 (Reachable.step .createPost env1 req1 hreach)
    obtain ⟨hx1, _, t1, c1, a1, e1⟩ := createPost_201 env1 st req1 x1 h1
    obtain ⟨hx2, hfresh2, t2, c2, a2, e2⟩ := createPost_201 env2 _ req2 x2 h2
    have hinv := storeInv_of_reachable hreach2
    obtain ⟨ds, hq, hperm, hnew, _⟩ := orderByDesc_of_inv env _ hinv hf
    refine ⟨ds.map postOfDoc, getPosts_of_query env _ req ds hq, ?_⟩
    generalize hd1 : (⟨[env1.autoId], [("title", .str t1), ("content", .str c1),
      ("author", .str a1), ("createdAt", .timestamp env1.now)]⟩ : Doc) = d1 at e1
    generalize hd2 : (⟨[env2.autoId], [("title", .str t2), ("content", .str c2),
      ("author", .str a2), ("createdAt", .timestamp env2.now)]⟩ : Doc) = d2 at e2
    have hp1 : d1.path = [x1] := by rw [← hd1, hx1]
    have hp2 : d2.path = [x2] := by rw [← hd2, hx2]
    have hid1 : d1.id = x1 := by simp [Doc.id, hp1]
    have hid2 : d2.id = x2 := by simp [Doc.id, hp2]
    have hc1 : d1.field "createdAt" = some (.timestamp env1.now) := by
      rw [← hd1]; simp [Doc.field, List.lookup]
    have hc2 : d2.field "createdAt" = some (.timestamp env2.now) := by
      rw [← hd2]; simp [Doc.field, List.lookup]
    have hm1 : d1 ∈ (createPost env1 st req1).2 := by rw [e1]; simp
    have hmem1 : d1 ∈ ds := hperm.mem_iff.mpr (by rw [e2]; simp [hm1])
    have hmem2 : d2 ∈ ds := hperm.mem_iff.mpr (by rw [e2]; simp)
    have hne : d2 ≠ d1 := by
      intro h
      have hx : [x2] ∉ (createPost env1 st req1).2.map Doc.path :=
        (lookupDoc_none_iff _ _).mp hfresh2
      apply hx
      rw [← hp2, h]
      exact List.mem_map_of_mem _ hm1
    have hsub : [d2, d1].Sublist ds := by
      rcases sublist_pair_of_mem hne hmem2 hmem1 with h | h
      · exact h
      · have hp : NewestFirst [d1, d2] := List.Pairwise.sublist h hnew
        have := (List.pairwise_cons.mp hp).1 d2 (by simp) env1.now env2.now hc1 hc2
        exact absurd hlt (not_lt.mpr this)
    have := (hsub.map postOfDoc).map Post.id
    simpa [postOfDoc, hid1, hid2] using this

/-- Witness of C7: the empty store lists nothing, and two posts created one
millisecond apart on top of it are listed latest first. -/
theorem C7_list_newest_first_witness :
    getPosts (calmEnv 9 "n9") [] ⟨none, none⟩ = (⟨200, .posts []⟩, [])
    ∧ ∃ L, getPosts (calmEnv 9 "n9")
          (createPost (calmEnv 1001 "n2")
            (createPost (calmEnv 1000 "n1") []
              ⟨none, postBody (.str "A") (.str "B") (.str "C")⟩).2
            ⟨none, postBody (.str "D") (.str "E") (.str "F")⟩).2 ⟨none, none⟩
        = (⟨200, .posts L⟩,
          (createPost (calmEnv 1001 "n2")
            (createPost (calmEnv 1000 "n1") []
              ⟨none, postBody (.str "A") (.str "B") (.str "C")⟩).2
            ⟨none, postBody (.str "D") (.str "E") (.str "F")⟩).2)
      ∧ ["n2", "n1"].Sublist (L.map Post.id) :=
  ⟨(C7_list_newest_first [] (calmEnv 9 "n9") ⟨none, none⟩ Reachable.empty rfl).2.1 rfl,
   (C7_list_newest_first [] (calmEnv 9 "n9") ⟨none, none⟩ Reachable.empty rfl).2.2
      (calmEnv 1000 "n1") (calmEnv 1001 "n2")
      ⟨none, postBody (.str "A") (.str "B") (.str "C")⟩
      ⟨none, postBody (.str "D") (.str "E") (.str "F")⟩ "n1" "n2"
      (by decide) (by decide) (by decide)⟩

/-- C8: `POST /createPost` reads nothing of the request but title, content and
author: two requests whose bodies agree on these three fields (and differ in
any other way, `id` and `createdAt` included) get, in the same store and
environment, the same response and leave the same store; and whenever the
response is 201 `{id: X}`, X is the id the store generated and the one
document added is stamped with the server clock. -/
theorem C8_create_ignores_client_id_and_time (env : Env) (st : Store)
    (q1 q2 b1 b2 : Option Json)
    (ht : fieldOf b1 "title" = fieldOf b2 "title")
    (hc : fieldOf b1 "content" = fieldOf b2 "content")
    (ha : fieldOf b1 "author" = fieldOf b2 "author") :
    createPost env st ⟨q1, b1⟩ = createPost env st ⟨q2, b2⟩
    ∧ (∀ x, (createPost env st ⟨q1, b1⟩).1 = ⟨201, .id x⟩ →
        x = env.autoId ∧ st.lookupDoc [x] = none ∧
        ∃ t c a, (createPost env st ⟨q1, b1⟩).2 =
          st ++ [⟨[env.autoId], [("title", .str t), ("content", .str c), ("author", .str a),
                               ("createdAt", .timestamp env.now)]⟩]) := by
  constructor
  · simp only [createPost, createPostTry, bodyField_eq_fieldOf, ht, hc, ha]
  · intro x hx
    exact createPost_201 env st ⟨q1, b1⟩ x hx

/-- Witness of C8: one body smuggles an `id` and a `createdAt`, the other a
different `createdAt` and a query id; both create the same document "n1"
stamped 1730851200123. -/
theorem C8_create_ignores_client_id_and_time_witness :
    createPost (calmEnv 1730851200123 "n1") []
        ⟨none, some (.obj [("id", .str "mine"), ("title", .str "A"), ("content", .str "B"),
                           ("author", .str "C"), ("createdAt", .str "1999-01-01")])⟩
      = createPost (calmEnv 1730851200123 "n1") []
        ⟨some (.str "other"), some (.obj [("createdAt", .num "5"), ("author", .str "C"),
                                          ("content", .str "B"), ("title", .str "A")])⟩
    ∧ createPost (calmEnv 1730851200123 "n1") []
        ⟨none, some (.obj [("id", .str "mine"), ("title", .str "A"), ("content", .str "B"),
                           ("author", .str "C"), ("createdAt", .str "1999-01-01")])⟩
      = (⟨201, .id "n1"⟩,
          [⟨["n1"], [("title", .str "A"), ("content", .str "B"), ("author", .str "C"),
                   ("createdAt", .timestamp 1730851200123)]⟩]) :=
  ⟨(C8_create_ignores_client_id_and_time (calmEnv 1730851200123 "n1") [] none
      (some (.str "other"))
      (some (.obj [("id", .str "mine"), ("title", .str "A"), ("content", .str "B"),
                   ("author", .str "C"), ("createdAt", .str "1999-01-01")]))
      (some (.obj [("createdAt", .num "5"), ("author", .str "C"),
                   ("content", .str "B"), ("title", .str "A")])) rfl rfl rfl).1,
   by decide⟩

/-- C9 (amended): for every stored record whose title, content and author are
each absent or a string, the post the read routes build from it has title,
content and author that are strings (the stored value when present, the empty
string when absent) and `createdAt` equal to the ISO text of the stored
timestamp when one is stored and null when `createdAt` is absent or is not a
timestamp; `GET /getPostById` returns exactly this post for the record, and
every post `GET /getPosts` returns is this post of some stored record. -/
theorem C9_read_normalisation (d : Doc)
    (hT : ∀ v, d.field "title" = some v → ∃ s, v = .str s)
    (hC : ∀ v, d.field "content" = some v → ∃ s, v = .str s)
    (hA : ∀ v, d.field "author" = some v → ∃ s, v = .str s) :
    ((∃ s, (postOfDoc d).title = .str s)
      ∧ (postOfDoc d).title = (d.field "title").getD (.str ""))
    ∧ ((∃ s, (postOfDoc d).content = .str s)
      ∧ (postOfDoc d).content = (d.field "content").getD (.str ""))
    ∧ ((∃ s, (postOfDoc d).author = .str s)
      ∧ (postOfDoc d).author = (d.field "author").getD (.str ""))
    ∧ (∀ ms, d.field "createdAt" = some (.timestamp ms) →
        (postOfDoc d).createdAt = some (toISOString ms))
    ∧ ((∀ ms, d.field "createdAt" ≠ some (.timestamp ms)) → (postOfDoc d).createdAt = none)
    ∧ (∀ (env : Env) (st : Store) (x : String) (p : List String) (b : Option Json),
        docRef x = .ok p → env.fault 0 = none → st.lookupDoc p = some d →
        getPostById env st ⟨some (.str x), b⟩ = (⟨200, .post (postOfDoc d)⟩, st))
    ∧ (∀ (env : Env) (st : Store) (req : Request), env.fault 0 = none →
        ∃ ds : List Doc, (∀ e ∈ ds, e ∈ st)
          ∧ getPosts env st req = (⟨200, .posts (ds.map postOfDoc)⟩, st)) := by
  have key : ∀ k, (∀ v, d.field k = some v → ∃ s, v = .str s) →
      (∃ s, orEmpty (d.field k) = .str s) ∧ orEmpty (d.field k) = (d.field k).getD (.str "") := by
    intro k hk
    cases hv : d.field k with
    | none => exact ⟨⟨"", rfl⟩, rfl⟩
    | some v =>
      obtain ⟨s, rfl⟩ := hk v hv
      exact ⟨⟨s, orEmpty_str s⟩, orEmpty_str s⟩
  refine ⟨key "title" hT, key "content" hC, key "author" hA, ?_, ?_, ?_, ?_⟩
  · intro ms h
    simp [postOfDoc, h, timestampToIso, FsVal.truthy]
  · intro h
    simp only [postOfDoc, timestampToIso]
    cases hv : d.field "createdAt" with
    | none => simp [FsVal.truthy]
    | some v =>
      cases v with
      | timestamp ms => exact absurd hv (h ms)
      | _ => simp
  · intro env st x p b hp hf hd
    have hx : x ≠ "" := by
      intro e
      subst e
      simp [docRef] at hp
    rw [getPostById_ref env st x p b hx hp hf, hd]
  · intro env st req hf
    refine ⟨(st.filter (fun e => e.path.length == 1 && (e.field "createdAt").isSome)).insertionSort
      (fun a b => Doc.orderKey "createdAt" b ≤ Doc.orderKey "createdAt" a), ?_, ?_⟩
    · intro e he
      have := (List.perm_insertionSort _ _).subset he
      exact (List.mem_filter.mp this).1
    · simp [getPosts, getPostsTry, Store.orderByDesc, hf, bind, Except.bind, pure, Except.pure]

/-- Witness of C9: a record with a title only and a `createdAt` that is a
string, not a timestamp. -/
theorem C9_read_normalisation_witness :
    (postOfDoc ⟨["p1"], [("title", .str "T"), ("createdAt", .str "yesterday")]⟩).title = .str "T"
    ∧ (postOfDoc ⟨["p1"], [("title", .str "T"), ("createdAt", .str "yesterday")]⟩).content
        = .str ""
    ∧ (postOfDoc ⟨["p1"], [("title", .str "T"), ("createdAt", .str "yesterday")]⟩).createdAt
        = none :=
  have h := C9_read_normalisation ⟨["p1"], [("title", .str "T"), ("createdAt", .str "yesterday")]⟩
    (fun v hv => ⟨"T", by cases hv; rfl⟩) (fun v hv => by cases hv) (fun v hv => by cases hv)
  ⟨h.1.2, h.2.1.2, h.2.2.2.2.1 (fun ms hms => by simp [Doc.field, List.lookup] at hms)⟩

/-- Counterexample to C9 as stated: a stored record whose title is the number
5 is returned by `GET /getPostById` with title 5, which is not a string. -/
theorem C9_counterexample :
    getPostById (calmEnv 9 "n1") [⟨["p1"], [("title", .num 5), ("content", .str "b")]⟩]
        ⟨some (.str "p1"), none⟩
      = (⟨200, .post { id := "p1", title := .num 5, content := .str "b", author := .str "",
                       createdAt := none }⟩,
         [⟨["p1"], [("title", .num 5), ("content", .str "b")]⟩])
    ∧ ¬ ∃ s, FsVal.num 5 = FsVal.str s := by
  constructor
  · decide
  · rintro ⟨s, hs⟩
    cases hs

/-- C10: whenever a store call a handler performs fails, with whatever fault
`f`, the handler answers 500 with its route's fixed message and leaves the
store as it was: the query of `/getPosts`; the read of `/getPostById`; the
`add` of `/createPost`; the read, and after a successful read of an existing
post the `update`, of `/updatePost`; the read, and after it the `delete`, of
`/deletePost`.  The fault does not occur in the response. -/
theorem C10_store_fault_is_500 (env : Env) (st : Store) (req : Request) (f : Fault) :
    (env.fault 0 = some f →
      getPosts env st req = (⟨500, .error "Failed to fetch posts."⟩, st))
    ∧ (env.fault 0 = some f → Json.truthy req.queryId = true →
      getPostById env st req = (⟨500, .error "Failed to fetch post."⟩, st))
    ∧ (env.fault 0 = some f → Json.truthy (fieldOf req.body "title") = true →
      Json.truthy (fieldOf req.body "content") = true →
      Json.truthy (fieldOf req.body "author") = true →
      createPost env st req = (⟨500, .error "Failed to create post."⟩, st))
    ∧ (env.fault 0 = some f → Json.truthy req.queryId = true →
      Json.truthy (fieldOf req.body "title") = true →
      Json.truthy (fieldOf req.body "content") = true →
      Json.truthy (fieldOf req.body "author") = true →
      updatePost env st req = (⟨500, .error "Failed to update post."⟩, st))
    ∧ (env.fault 0 = none → env.fault 1 = some f → Json.truthy req.queryId = true →
      Json.truthy (fieldOf req.body "title") = true →
      Json.truthy (fieldOf req.body "content") = true →
      Json.truthy (fieldOf req.body "author") = true →
      (∀ text path d, jsStringOf req.queryId = .ok text → docRef text = .ok path →
        st.lookupDoc path = some d →
        updatePost env st req = (⟨500, .error "Failed to update post."⟩, st)))
    ∧ (env.fault 0 = some f → Json.truthy req.queryId = true →
      deletePost env st req = (⟨500, .error "Failed to delete post."⟩, st))
    ∧ (env.fault 0 = none → env.fault 1 = some f → Json.truthy req.queryId = true →
      (∀ text path d, jsStringOf req.queryId = .ok text → docRef text = .ok path →
        st.lookupDoc path = some d →
        deletePost env st req = (⟨500, .error "Failed to delete post."⟩, st))) := by
  obtain ⟨q, body⟩ := req
  simp only [← bodyField_eq_fieldOf q body]
  refine ⟨?_, ?_, ?_, ?_, ?_, ?_, ?_⟩
  · intro h0
    simp [getPosts, getPostsTry, Store.orderByDesc, h0, bind, Except.bind]
  · intro h0 hq
    cases hs : jsStringOf q with
    | error e => simp [getPostById, getPostByIdTry, hq, hs, bind, Except.bind]
    | ok text =>
      cases hp : docRef text <;>
        simp [getPostById, getPostByIdTry, hq, hs, hp, Store.get, h0, bind, Except.bind]
  · intro h0 ht hc ha
    cases h1 : jsStringOf (bodyField ⟨q, body⟩ "title") <;>
    cases h2 : jsStringOf (bodyField ⟨q, body⟩ "content") <;>
    cases h3 : jsStringOf (bodyField ⟨q, body⟩ "author") <;>
      simp [createPost, createPostTry, ht, hc, ha, h1, h2, h3, Store.add, h0, bind, Except.bind]
  · intro h0 hq ht hc ha
    cases hs : jsStringOf q with
    | error e => simp [updatePost, updatePostTry, hq, ht, hc, ha, hs, bind, Except.bind]
    | ok text =>
      cases hp : docRef text <;>
        simp [updatePost, updatePostTry, hq, ht, hc, ha, hs, hp, Store.get, h0, bind,
          Except.bind]
  · intro h0 h1 hq ht hc ha text path d hs hp hd
    cases e1 : jsStringOf (bodyField ⟨q, body⟩ "title") <;>
    cases e2 : jsStringOf (bodyField ⟨q, body⟩ "content") <;>
    cases e3 : jsStringOf (bodyField ⟨q, body⟩ "author") <;>
      simp [updatePost, updatePostTry, hq, ht, hc, ha, hs, hp, Store.get, h0, hd, e1, e2, e3,
        Store.update, h1, bind, Except.bind]
  · intro h0 hq
    cases hs : jsStringOf q with
    | error e => simp [deletePost, deletePostTry, hq, hs, bind, Except.bind]
    | ok text =>
      cases hp : docRef text <;>
        simp [deletePost, deletePostTry, hq, hs, hp, Store.get, h0, bind, Except.bind]
  · intro h0 h1 hq text path d hs hp hd
    simp [deletePost, deletePostTry, hq, hs, hp, Store.get, h0, hd, Store.delete, h1, bind,
      Except.bind]

/-- Witness of C10: the query of `/getPosts` fails with one fault, and the
`update` of `/updatePost` (after a successful read of "p1") with another. -/
theorem C10_store_fault_is_500_witness :
    getPosts ⟨5, "n1", fun k => if k = 0 then some ⟨"UNAVAILABLE: deadline"⟩ else none⟩
        [⟨["p1"], [("createdAt", .timestamp 3)]⟩] ⟨none, none⟩
      = (⟨500, .error "Failed to fetch posts."⟩, [⟨["p1"], [("createdAt", .timestamp 3)]⟩])
    ∧ updatePost ⟨5, "n1", fun k => if k = 1 then some ⟨"ABORTED: contention"⟩ else none⟩
        [⟨["p1"], [("createdAt", .timestamp 3)]⟩]
        ⟨some (.str "p1"), postBody (.str "T") (.str "B") (.str "C")⟩
      = (⟨500, .error "Failed to update post."⟩, [⟨["p1"], [("createdAt", .timestamp 3)]⟩]) :=
  ⟨(C10_store_fault_is_500
      ⟨5, "n1", fun k => if k = 0 then some ⟨"UNAVAILABLE: deadline"⟩ else none⟩
      [⟨["p1"], [("createdAt", .timestamp 3)]⟩] ⟨none, none⟩ ⟨"UNAVAILABLE: deadline"⟩).1 rfl,
   (C10_store_fault_is_500
      ⟨5, "n1", fun k => if k = 1 then some ⟨"ABORTED: contention"⟩ else none⟩
      [⟨["p1"], [("createdAt", .timestamp 3)]⟩]
      ⟨some (.str "p1"), postBody (.str "T") (.str "B") (.str "C")⟩
      ⟨"ABORTED: contention"⟩).2.2.2.2.1 rfl rfl rfl rfl rfl rfl "p1" ["p1"]
      ⟨["p1"], [("createdAt", .timestamp 3)]⟩ rfl rfl (by decide)⟩

end BlogApi
